import Mathlib

/-!
Shallow embedding of `src/app.py` (CogniSynth research agent, version 3.0).

External services (Tavily search, HTTP page fetch + BeautifulSoup text
extraction, the Gemini model, image fetching/analysis, `urllib.parse.urljoin`,
and pandas `DataFrame.to_string`) are modelled as fields of an `Env` record;
a value of type `Except String α` models a Python call that may raise.
Everything the program computes itself (string handling, the per-data-point
loop, the acceptance test, sentinel values, validation) is translated
function by function from the source.
-/

namespace CogniSynth

/-- Characters stripped by Python's `str.strip()` (ASCII whitespace). -/
def isPySpace (c : Char) : Bool :=
  c = ' ' || c = '\t' || c = '\n' || c = '\r' || c = '\x0b' || c = '\x0c'

/-- Model of Python `str.strip()`: drop leading and trailing whitespace. -/
def pyStrip (s : String) : String :=
  String.mk (((s.toList.dropWhile isPySpace).reverse.dropWhile isPySpace).reverse)

/-- Model of Python string slicing `s[:n]`: the first `n` characters. -/
def pyTake (n : Nat) (s : String) : String :=
  String.mk (s.toList.take n)

/-- Model of Python `str.lower()` (ASCII case folding). -/
def pyLower (s : String) : String :=
  String.mk (s.toList.map Char.toLower)

/-- Does `pat` occur at the head of `l`? Helper for substring containment. -/
def subAt : List Char → List Char → Bool
  | [], _ => true
  | _ :: _, [] => false
  | x :: xs, y :: ys => x = y && subAt xs ys

/-- Does `pat` occur anywhere in `l`? Helper for substring containment. -/
def hasSub (pat : List Char) : List Char → Bool
  | [] => subAt pat []
  | y :: ys => subAt pat (y :: ys) || hasSub pat ys

/-- Model of Python's `needle in hay` on strings: substring containment. -/
def pyIn (needle hay : String) : Bool :=
  hasSub needle.toList hay.toList

/-- Split a character list at every occurrence of `c`, keeping empty groups,
as Python's `str.split(c)` does. -/
def splitOnChar (c : Char) : List Char → List (List Char)
  | [] => [[]]
  | x :: xs =>
    match splitOnChar c xs with
    | [] => [[]]
    | g :: gs => if x = c then [] :: g :: gs else (x :: g) :: gs

/-- Model of Python `text.split('\n')`. -/
def pySplitNL (s : String) : List String :=
  (splitOnChar '\n' s.toList).map String.mk

/-- One search hit; the pipeline only reads its `url` field
(`result['url']` in `app.py`). -/
structure SearchResult where
  url : String
  deriving DecidableEq

/-- One row of `results_list`: the dict
`{"Data Point": point, "Finding": extracted_info, "Source URL": url}`. -/
structure Finding where
  dataPoint : String
  finding : String
  sourceUrl : String
  deriving DecidableEq

/-- Observable calls the run makes, in order: a search dispatched to the
service (with the final query string), an extraction attempt on a URL for a
data point, a Finding appended to `results_list`, and the one summary request
(with the serialized table it receives). -/
inductive Event where
  | searchEv (dispatchedQuery : String)
  | extractEv (url : String) (point : String)
  | recordEv (f : Finding)
  | summarizeEv (tableText : String)
  deriving DecidableEq

/-- Is this event the summary request? -/
def Event.isSummarize : Event → Bool
  | .summarizeEv _ => true
  | _ => false

/-- Is this event an extraction attempt? -/
def Event.isExtract : Event → Bool
  | .extractEv _ _ => true
  | _ => false

/-- The external services `app.py` calls, as black boxes.
`search` is `tavily.search` (returning the `results` list);
`fetchText` is `requests.get` + BeautifulSoup `get_text` (the visible text of
the page, before truncation); `llm` is `model.generate_content` on a text
prompt (returning `.text`); `fetchImgSrcs` is the page fetch + `find_all('img')`
of `find_relevant_images`, giving each tag's `src` attribute
(`none` models a missing attribute); `analyzeImage` is the image download plus
the vision-model call, returning the model's text; `urljoin` is
`urllib.parse.urljoin`; `serialize` is pandas `DataFrame.to_string(index=False)`
on the findings table. -/
structure Env where
  search : String → Except String (List SearchResult)
  fetchText : String → Except String String
  llm : String → Except String String
  fetchImgSrcs : String → Except String (List (Option String))
  analyzeImage : String → String → Except String String
  urljoin : String → String → String
  serialize : List Finding → String

/-- The fixed site-restriction clause `perform_search` appends when
`use_elite_sources` is set (note the leading space, from `+=`). -/
def eliteClause : String :=
  " site:mckinsey.com OR site:bcg.com OR site:bain.com OR site:deloitte.com OR site:ey.com OR site:pwc.com OR site:hbr.org OR site:gartner.com"

/-- The query string actually dispatched by `perform_search`. -/
def searchQueryOf (query : String) (use_elite_sources : Bool) : String :=
  if use_elite_sources then query ++ eliteClause else query

/-- `perform_search` from `app.py`: build the (possibly augmented) query,
call the search service, return its result list, and return `[]` on any
exception. Also yields the dispatch event. -/
def perform_search (env : Env) (query : String) (use_elite_sources : Bool) :
    List SearchResult × List Event :=
  let search_query := searchQueryOf query use_elite_sources
  ((match env.search search_query with
    | .ok rs => rs
    | .error _ => []),
   [Event.searchEv search_query])

/-- The extraction prompt built in `scrape_and_extract` (an f-string in the
source). -/
def extractionPrompt (information_to_extract text_content : String) : String :=
  "Based *only* on the text below, find the value for: \"" ++ information_to_extract
    ++ "\". If not found, respond *only* with \"Information Not Found\". Do not add commentary. Text: --- "
    ++ text_content ++ " ---"

/-- `scrape_and_extract` from `app.py`: fetch the page, take the visible text
truncated to 15000 characters, ask the model, and return its text stripped;
any exception (fetch, parse, or model) yields the sentinel
`"Extraction Failed"`. Also yields the attempt event. -/
def scrape_and_extract (env : Env) (url information_to_extract : String) :
    String × List Event :=
  ((match env.fetchText url with
    | .error _ => "Extraction Failed"
    | .ok pageText =>
      let text_content := pyTake 15000 pageText
      match env.llm (extractionPrompt information_to_extract text_content) with
      | .error _ => "Extraction Failed"
      | .ok t => pyStrip t),
   [Event.extractEv url information_to_extract])

/-- The image-relevance prompt built in `find_relevant_images` (the image
itself is passed alongside; here the model call is `Env.analyzeImage`). -/
def imagePrompt (topic : String) : String :=
  "Is this image a relevant chart, graph, or data visualization for the topic: \x27"
    ++ topic ++ "\x27? Answer with only \x27Yes\x27 or \x27No\x27."

/-- The `for img in images[:5]` loop body of `find_relevant_images`:
skip tags with a missing or empty `src` (Python falsiness), make the URL
absolute, analyze; on a broken image continue; on a yes-answer append and stop
once two images are collected. -/
def imgLoop (env : Env) (pageUrl topic : String) :
    List (Option String) → List String → List String
  | [], acc => acc
  | srcOpt :: rest, acc =>
    let img_url0 := srcOpt.getD ""
    if img_url0 = "" then
      imgLoop env pageUrl topic rest acc
    else
      let img_url := env.urljoin pageUrl img_url0
      match env.analyzeImage img_url topic with
      | .error _ => imgLoop env pageUrl topic rest acc
      | .ok answer =>
        if pyIn "yes" (pyLower answer) then
          let acc2 := acc ++ [img_url]
          if 2 ≤ acc2.length then acc2 else imgLoop env pageUrl topic rest acc2
        else
          imgLoop env pageUrl topic rest acc

/-- `find_relevant_images` from `app.py`: fetch the page and its `img` tags,
examine at most the first 5, collect at most 2 relevant absolute image URLs;
any error on the page itself yields `[]`. -/
def find_relevant_images (env : Env) (url topic : String) : List String :=
  match env.fetchImgSrcs url with
  | .error _ => []
  | .ok srcs => imgLoop env url topic (srcs.take 5) []

/-- The summary prompt built in `generate_elaborate_summary`. -/
def summaryPrompt (research_topic data_string : String) : String :=
  "As a Principal Consultant, synthesize the following data for \"" ++ research_topic
    ++ "\" into a summary with three sections: Key Insights, Potential Implications, and Identified Gaps & Next Steps. Use bullet points for each. Base your analysis *only* on the data provided. Data: --- "
    ++ data_string ++ " ---"

/-- `generate_elaborate_summary` from `app.py`: serialize the table, ask the
model, return its text stripped; on any exception return the literal
`"Error generating summary: ..."` string. -/
def generate_elaborate_summary (env : Env) (data_df : List Finding)
    (research_topic : String) : String :=
  let data_string := env.serialize data_df
  match env.llm (summaryPrompt research_topic data_string) with
  | .ok t => pyStrip t
  | .error e => "Error generating summary: " ++ e

/-- The acceptance test of the main loop:
`"Information Not Found" not in extracted_info and
 "Extraction Failed" not in extracted_info` (substring containment). -/
def accepted (extracted_info : String) : Bool :=
  !(pyIn "Information Not Found" extracted_info)
    && !(pyIn "Extraction Failed" extracted_info)

/-- The `for result in search_results` inner loop: extract from each URL in
order; on the first accepted extraction return it with its URL and the images
found on that page, and stop; `none` if the list is exhausted. -/
def urlLoop (env : Env) (topic point : String) :
    List SearchResult → Option (String × String × List String) × List Event
  | [] => (none, [])
  | r :: rest =>
    let (extracted_info, ev) := scrape_and_extract env r.url point
    if accepted extracted_info then
      (some (extracted_info, r.url, find_relevant_images env r.url topic), ev)
    else
      let (res, evs) := urlLoop env topic point rest
      (res, ev ++ evs)

/-- The placeholder row recorded when no source yields an accepted value. -/
def notFoundFinding (point : String) : Finding :=
  ⟨point, "Could not find in top search results", "N/A"⟩

/-- One iteration of `for i, point in enumerate(data_points_to_find)`:
search for `f"{topic} {point}"`, walk the result URLs, and record either the
accepted Finding (with that page's visuals) or the placeholder row. -/
def processPoint (env : Env) (topic : String) (use_elite_sources : Bool)
    (point : String) : (Finding × List String) × List Event :=
  let searched := perform_search env (topic ++ " " ++ point) use_elite_sources
  let looped := urlLoop env topic point searched.1
  match looped.1 with
  | some (info, url, visuals) =>
    ((⟨point, info, url⟩, visuals),
     searched.2 ++ looped.2 ++ [Event.recordEv ⟨point, info, url⟩])
  | none =>
    ((notFoundFinding point, []),
     searched.2 ++ looped.2 ++ [Event.recordEv (notFoundFinding point)])

/-- The whole `for` loop over data points: accumulate `results_list` and
`all_visuals` in order. -/
def runPipeline (env : Env) (topic : String) (use_elite_sources : Bool) :
    List String → (List Finding × List String) × List Event
  | [] => (([], []), [])
  | point :: rest =>
    let ((f, vs), ev) := processPoint env topic use_elite_sources point
    let ((fs, vss), evs) := runPipeline env topic use_elite_sources rest
    ((f :: fs, vs ++ vss), ev ++ evs)

/-- Building `data_points_to_find`:
`[line.strip() for line in data_points_text.split('\n') if line.strip()]`. -/
def parseDataPoints (data_points_text : String) : List String :=
  (pySplitNL data_points_text).filterMap fun line =>
    let t := pyStrip line
    if t = "" then none else some t

/-- What one submission produces: whether the `st.error` validation message
was shown, the findings table, whether the summary generator ran, and the
summary text. -/
structure RunOutput where
  errorShown : Bool
  findings : List Finding
  summaryCalled : Bool
  summary : String
  deriving DecidableEq

/-- The `if submitted:` handler of `app.py`: if `not topic or not
data_points_text` show an error and do nothing else; otherwise parse the data
points, run the pipeline, and generate the summary on the complete table. -/
def handleSubmit (env : Env) (topic data_points_text : String)
    (use_elite_sources : Bool) : RunOutput × List Event :=
  if topic = "" ∨ data_points_text = "" then
    (⟨true, [], false, ""⟩, [])
  else
    let data_points_to_find := parseDataPoints data_points_text
    let ran := runPipeline env topic use_elite_sources data_points_to_find
    let results_list := ran.1.1
    let summary := generate_elaborate_summary env results_list topic
    (⟨false, results_list, true, summary⟩,
     ran.2 ++ [Event.summarizeEv (env.serialize results_list)])

/-- A serializer standing in for pandas `to_string(index=False)` in concrete
test environments. -/
def rowSerialize (fs : List Finding) : String :=
  String.intercalate " | " (fs.map fun f => f.dataPoint ++ " " ++ f.finding ++ " " ++ f.sourceUrl)

/-- A concrete environment in which every external call fails. -/
def failEnv : Env where
  search := fun _ => .error "down"
  fetchText := fun _ => .error "down"
  llm := fun _ => .error "down"
  fetchImgSrcs := fun _ => .error "down"
  analyzeImage := fun _ _ => .error "down"
  urljoin := fun b r => b ++ r
  serialize := rowSerialize

/-- A concrete environment in which search yields one URL and the model
answers with text that merely contains the not-found sentinel. -/
def cexEnv : Env where
  search := fun _ => .ok [⟨"u1"⟩]
  fetchText := fun _ => .ok "page text"
  llm := fun _ => .ok "Information Not Found on the page"
  fetchImgSrcs := fun _ => .error "down"
  analyzeImage := fun _ _ => .error "down"
  urljoin := fun b r => b ++ r
  serialize := rowSerialize

/-- A concrete environment in which search yields three URLs, the first page
is unreachable, and the others extract successfully. -/
def fmEnv : Env where
  search := fun _ => .ok [⟨"u0"⟩, ⟨"u1"⟩, ⟨"u2"⟩]
  fetchText := fun u => if u = "u0" then .error "down" else .ok "page"
  llm := fun _ => .ok "42"
  fetchImgSrcs := fun _ => .error "down"
  analyzeImage := fun _ _ => .error "down"
  urljoin := fun b r => b ++ r
  serialize := rowSerialize

/-- A concrete environment in which one page carries six image tags,
all judged relevant. -/
def imgEnv : Env where
  search := fun _ => .error "down"
  fetchText := fun _ => .error "down"
  llm := fun _ => .error "down"
  fetchImgSrcs := fun _ => .ok [some "a", none, some "b", some "c", some "d", some "e"]
  analyzeImage := fun _ _ => .ok "Yes"
  urljoin := fun b r => b ++ r
  serialize := rowSerialize

/-! ## Structural lemmas about the pipeline -/

/-- Unfolding the inner URL loop one step. -/
theorem urlLoop_cons (env : Env) (topic point : String) (r : SearchResult)
    (rest : List SearchResult) :
    urlLoop env topic point (r :: rest) =
      if accepted (scrape_and_extract env r.url point).1 then
        (some ((scrape_and_extract env r.url point).1, r.url,
          find_relevant_images env r.url topic),
         [Event.extractEv r.url point])
      else
        ((urlLoop env topic point rest).1,
         Event.extractEv r.url point :: (urlLoop env topic point rest).2) := rfl

/-- Unfolding one data-point step of the pipeline loop. -/
theorem runPipeline_cons (env : Env) (topic : String) (elite : Bool)
    (p : String) (ps : List String) :
    runPipeline env topic elite (p :: ps) =
      (((processPoint env topic elite p).1.1 :: (runPipeline env topic elite ps).1.1,
        (processPoint env topic elite p).1.2 ++ (runPipeline env topic elite ps).1.2),
       (processPoint env topic elite p).2 ++ (runPipeline env topic elite ps).2) := rfl

/-- The Finding a point step records is always labelled by that point. -/
theorem processPoint_dataPoint (env : Env) (topic : String) (elite : Bool)
    (point : String) :
    ((processPoint env topic elite point).1.1).dataPoint = point := by
  unfold processPoint
  cases h : (urlLoop env topic point
      (perform_search env (topic ++ " " ++ point) elite).1).1 with
  | none => simp [h]; rfl
  | some v => rcases v with ⟨info, url, visuals⟩; simp [h]

/-- The findings table lists exactly the input data points, in order. -/
theorem runPipeline_map_dataPoint (env : Env) (topic : String) (elite : Bool)
    (pts : List String) :
    ((runPipeline env topic elite pts).1.1).map Finding.dataPoint = pts := by
  induction pts with
  | nil => rfl
  | cons p ps ih =>
    rw [runPipeline_cons]
    simp [ih, processPoint_dataPoint]

/-- The findings list of the pipeline, one step. -/
theorem runPipeline_findings_cons (env : Env) (topic : String) (elite : Bool)
    (p : String) (ps : List String) :
    (runPipeline env topic elite (p :: ps)).1.1 =
      (processPoint env topic elite p).1.1 :: (runPipeline env topic elite ps).1.1 := rfl

/-- The event trace of the pipeline, one step. -/
theorem runPipeline_events_cons (env : Env) (topic : String) (elite : Bool)
    (p : String) (ps : List String) :
    (runPipeline env topic elite (p :: ps)).2 =
      (processPoint env topic elite p).2 ++ (runPipeline env topic elite ps).2 := rfl

/-- Every event the URL loop emits is an extraction attempt. -/
theorem urlLoop_events_extract (env : Env) (topic point : String)
    (rs : List SearchResult) :
    ∀ e ∈ (urlLoop env topic point rs).2, Event.isExtract e = true := by
  induction rs with
  | nil => intro e he; simp [urlLoop] at he
  | cons r rest ih =>
    rw [urlLoop_cons]
    by_cases h : accepted (scrape_and_extract env r.url point).1 = true
    · intro e he
      simp [h] at he
      subst he
      rfl
    · intro e he
      simp [h] at he
      rcases he with rfl | he
      · rfl
      · exact ih e he

/-- The event trace of one point step: the dispatched search, the extraction
attempts of the URL loop, then the recording of that point's Finding. -/
theorem processPoint_events (env : Env) (topic : String) (elite : Bool)
    (point : String) :
    (processPoint env topic elite point).2 =
      Event.searchEv (searchQueryOf (topic ++ " " ++ point) elite)
        :: ((urlLoop env topic point
              (perform_search env (topic ++ " " ++ point) elite).1).2
            ++ [Event.recordEv (processPoint env topic elite point).1.1]) := by
  unfold processPoint
  cases h : (urlLoop env topic point
      (perform_search env (topic ++ " " ++ point) elite).1).1 with
  | none => simp only [h]; rfl
  | some v => rcases v with ⟨info, url, visuals⟩; simp only [h]; rfl

/-- A search event inside one point step carries that point's query. -/
theorem processPoint_searchEv (env : Env) (topic : String) (elite : Bool)
    (point q : String) :
    Event.searchEv q ∈ (processPoint env topic elite point).2 →
    q = searchQueryOf (topic ++ " " ++ point) elite := by
  rw [processPoint_events]
  intro h
  rcases List.mem_cons.mp h with h | h
  · injection h with h
  · rcases List.mem_append.mp h with h | h
    · have hx := urlLoop_events_extract env topic point _ _ h
      simp [Event.isExtract] at hx
    · simp at h

/-- No event of one point step is the summary request. -/
theorem processPoint_no_summarize (env : Env) (topic : String) (elite : Bool)
    (point : String) :
    ∀ e ∈ (processPoint env topic elite point).2, Event.isSummarize e = false := by
  rw [processPoint_events]
  intro e he
  rcases List.mem_cons.mp he with rfl | he
  · rfl
  rcases List.mem_append.mp he with he | he
  · have hx := urlLoop_events_extract env topic point _ e he
    cases e <;> first | rfl | simp [Event.isExtract] at hx
  · simp at he
    subst he
    rfl

/-- No event of the pipeline loop is the summary request. -/
theorem runPipeline_no_summarize (env : Env) (topic : String) (elite : Bool)
    (pts : List String) :
    ∀ e ∈ (runPipeline env topic elite pts).2, Event.isSummarize e = false := by
  induction pts with
  | nil => intro e he; simp [runPipeline] at he
  | cons p ps ih =>
    rw [runPipeline_events_cons]
    intro e he
    rcases List.mem_append.mp he with he | he
    · exact processPoint_no_summarize env topic elite p e he
    · exact ih e he

/-- A search event of the pipeline loop carries the query of one of the
data points. -/
theorem runPipeline_searchEv (env : Env) (topic : String) (elite : Bool)
    (pts : List String) (q : String) :
    Event.searchEv q ∈ (runPipeline env topic elite pts).2 →
    ∃ point ∈ pts, q = searchQueryOf (topic ++ " " ++ point) elite := by
  induction pts with
  | nil => intro h; simp [runPipeline] at h
  | cons p ps ih =>
    rw [runPipeline_events_cons]
    intro h
    rcases List.mem_append.mp h with h | h
    · exact ⟨p, by simp, processPoint_searchEv env topic elite p q h⟩
    · rcases ih h with ⟨pt, hpt, hq⟩
      exact ⟨pt, by simp [hpt], hq⟩

/-- On a valid submission the handler runs the pipeline on the parsed points,
flags no error, and appends the one summary request to the trace. -/
theorem handleSubmit_of_valid (env : Env) (topic dp : String) (elite : Bool)
    (ht : topic ≠ "") (hd : dp ≠ "") :
    handleSubmit env topic dp elite =
      (⟨false, (runPipeline env topic elite (parseDataPoints dp)).1.1, true,
        generate_elaborate_summary env
          (runPipeline env topic elite (parseDataPoints dp)).1.1 topic⟩,
       (runPipeline env topic elite (parseDataPoints dp)).2
         ++ [Event.summarizeEv
              (env.serialize (runPipeline env topic elite (parseDataPoints dp)).1.1)]) := by
  unfold handleSubmit
  simp [ht, hd]

/-- The result list `perform_search` hands the loop. -/
theorem perform_search_results (env : Env) (q : String) (elite : Bool) :
    (perform_search env q elite).1 =
      match env.search (searchQueryOf q elite) with
      | .ok rs => rs
      | .error _ => [] := rfl

/-- The search dispatch event `perform_search` emits. -/
theorem perform_search_events (env : Env) (q : String) (elite : Bool) :
    (perform_search env q elite).2 = [Event.searchEv (searchQueryOf q elite)] := rfl

/-- If every URL's extraction is rejected, the URL loop accepts nothing. -/
theorem urlLoop_all_rejected (env : Env) (topic point : String)
    (rs : List SearchResult)
    (h : ∀ s ∈ rs, accepted (scrape_and_extract env s.url point).1 = false) :
    (urlLoop env topic point rs).1 = none := by
  induction rs with
  | nil => rfl
  | cons r rest ih =>
    rw [urlLoop_cons]
    have hr := h r (by simp)
    simp only [hr, Bool.false_eq_true, if_false]
    exact ih fun s hs => h s (by simp [hs])

/-- If every URL's extraction is rejected, the point step records the
placeholder Finding. -/
theorem processPoint_all_rejected (env : Env) (topic : String) (elite : Bool)
    (point : String)
    (h : ∀ s ∈ (perform_search env (topic ++ " " ++ point) elite).1,
      accepted (scrape_and_extract env s.url point).1 = false) :
    (processPoint env topic elite point).1 = (notFoundFinding point, []) := by
  simp only [processPoint]
  rw [urlLoop_all_rejected env topic point _ h]

/-- The URL loop stops at the first accepted extraction: it returns that
value with its URL, and its attempts are exactly the URLs up to and
including the accepted one. -/
theorem urlLoop_first_accepted (env : Env) (topic point : String)
    (pre : List SearchResult) (r : SearchResult) (post : List SearchResult)
    (hpre : ∀ s ∈ pre, accepted (scrape_and_extract env s.url point).1 = false)
    (hr : accepted (scrape_and_extract env r.url point).1 = true) :
    urlLoop env topic point (pre ++ r :: post) =
      (some ((scrape_and_extract env r.url point).1, r.url,
        find_relevant_images env r.url topic),
       (pre ++ [r]).map fun s => Event.extractEv s.url point) := by
  induction pre with
  | nil =>
    simp only [List.nil_append]
    rw [urlLoop_cons]
    simp [hr]
  | cons s₀ pre' ih =>
    have h0 := hpre s₀ (by simp)
    rw [List.cons_append, urlLoop_cons]
    simp only [h0, Bool.false_eq_true, if_false]
    have ihh := ih fun s hs => hpre s (by simp [hs])
    simp [ihh]

/-- The list comprehension building `data_points_to_find` is strip-then-drop:
map `strip` over the lines and keep the non-empty results. -/
theorem filterMap_strip_eq (ls : List String) :
    (ls.filterMap fun line =>
      let t := pyStrip line
      if t = "" then none else some t)
      = (ls.map pyStrip).filter fun t => !(t == "") := by
  induction ls with
  | nil => rfl
  | cons l rest ih =>
    by_cases h : pyStrip l = ""
    · simp [List.filterMap_cons, h, ih]
    · simp [List.filterMap_cons, h, ih]

/-- The image loop never grows its accumulator beyond two entries. -/
theorem imgLoop_length (env : Env) (pageUrl topic : String)
    (l : List (Option String)) :
    ∀ acc : List String, acc.length ≤ 1 →
      (imgLoop env pageUrl topic l acc).length ≤ 2 := by
  induction l with
  | nil => intro acc h; simp only [imgLoop]; omega
  | cons srcOpt rest ih =>
    intro acc h
    simp only [imgLoop]
    by_cases h0 : srcOpt.getD "" = ""
    · simp only [h0, if_pos]
      exact ih acc h
    · simp only [h0, if_neg, if_false]
      cases han : env.analyzeImage (env.urljoin pageUrl (srcOpt.getD "")) topic with
      | error e => exact ih acc h
      | ok ans =>
        by_cases hy : pyIn "yes" (pyLower ans) = true
        · simp only [hy, if_pos]
          by_cases h2 :
              2 ≤ (acc ++ [env.urljoin pageUrl (srcOpt.getD "")]).length
          · simp only [h2, if_pos]
            simp only [List.length_append, List.length_singleton] at h2 ⊢
            omega
          · simp only [h2, if_neg, if_false]
            refine ih _ ?_
            simp only [List.length_append, List.length_singleton] at h2 ⊢
            omega
        · simp only [hy, Bool.false_eq_true, if_false]
          exact ih acc h

/-- Every URL the image loop collects is either already in the accumulator or
is a tag of the examined list made absolute against the page URL. -/
theorem imgLoop_mem (env : Env) (pageUrl topic : String)
    (l : List (Option String)) :
    ∀ (acc : List String), ∀ u ∈ imgLoop env pageUrl topic l acc,
      u ∈ acc ∨ ∃ src, (some src) ∈ l ∧ u = env.urljoin pageUrl src := by
  induction l with
  | nil => intro acc u hu; left; simpa [imgLoop] using hu
  | cons srcOpt rest ih =>
    intro acc u hu
    simp only [imgLoop] at hu
    by_cases h0 : srcOpt.getD "" = ""
    · simp only [h0, if_pos] at hu
      rcases ih acc u hu with h | ⟨src, hsrc, hu⟩
      · exact Or.inl h
      · exact Or.inr ⟨src, by simp [hsrc], hu⟩
    · simp only [h0, if_neg, if_false] at hu
      have hsome : srcOpt = some (srcOpt.getD "") := by
        cases srcOpt with
        | none => simp at h0
        | some s => rfl
      cases han : env.analyzeImage (env.urljoin pageUrl (srcOpt.getD "")) topic with
      | error e =>
        rw [han] at hu
        rcases ih acc u hu with h | ⟨src, hsrc, hu⟩
        · exact Or.inl h
        · exact Or.inr ⟨src, by simp [hsrc], hu⟩
      | ok ans =>
        rw [han] at hu
        by_cases hy : pyIn "yes" (pyLower ans) = true
        · simp only [hy, if_pos] at hu
          by_cases h2 :
              2 ≤ (acc ++ [env.urljoin pageUrl (srcOpt.getD "")]).length
          · simp only [h2, if_pos] at hu
            rcases List.mem_append.mp hu with h | h
            · exact Or.inl h
            · simp at h
              exact Or.inr ⟨srcOpt.getD "", by rw [← hsome]; simp, h⟩
          · simp only [h2, if_neg, if_false] at hu
            rcases ih _ u hu with h | ⟨src, hsrc, hu⟩
            · rcases List.mem_append.mp h with h | h
              · exact Or.inl h
              · simp at h
                exact Or.inr ⟨srcOpt.getD "", by rw [← hsome]; simp, h⟩
            · exact Or.inr ⟨src, by simp [hsrc], hu⟩
        · simp only [hy, Bool.false_eq_true, if_false] at hu
          rcases ih acc u hu with h | ⟨src, hsrc, hu⟩
          · exact Or.inl h
          · exact Or.inr ⟨src, by simp [hsrc], hu⟩

/-- A broken or rejected image (here: the analysis call raising) is skipped
without affecting the rest of the loop. -/
theorem imgLoop_skip_broken (env : Env) (pageUrl topic src : String)
    (rest : List (Option String)) (acc : List String) (e : String)
    (hne : src ≠ "")
    (herr : env.analyzeImage (env.urljoin pageUrl src) topic = .error e) :
    imgLoop env pageUrl topic (some src :: rest) acc =
      imgLoop env pageUrl topic rest acc := by
  simp only [imgLoop, Option.getD_some]
  simp [hne, herr]

/-- The image loop reads the environment only through `urljoin` and
`analyzeImage`. -/
theorem imgLoop_congr (env₁ env₂ : Env) (pageUrl topic : String)
    (hj : env₁.urljoin = env₂.urljoin)
    (ha : env₁.analyzeImage = env₂.analyzeImage)
    (l : List (Option String)) :
    ∀ acc : List String,
      imgLoop env₁ pageUrl topic l acc = imgLoop env₂ pageUrl topic l acc := by
  induction l with
  | nil => intro acc; rfl
  | cons srcOpt rest ih =>
    intro acc
    simp only [imgLoop, hj, ha]
    by_cases h0 : srcOpt.getD "" = ""
    · simp only [h0, if_pos]
      exact ih acc
    · simp only [h0, if_neg, if_false]
      cases han : env₂.analyzeImage (env₂.urljoin pageUrl (srcOpt.getD "")) topic with
      | error e => exact ih acc
      | ok ans =>
        by_cases hy : pyIn "yes" (pyLower ans) = true
        · simp only [hy, if_pos]
          by_cases h2 :
              2 ≤ (acc ++ [env₂.urljoin pageUrl (srcOpt.getD "")]).length
          · simp only [h2, if_pos]
          · simp only [h2, if_neg, if_false]
            exact ih _
        · simp only [hy, Bool.false_eq_true, if_false]
          exact ih acc

/-! ## Claim theorems -/

/-- Claim C1: for every submitted run, the findings table has exactly one
Finding row per input data point, labelled by that point, in submission
order, whatever the outcome of each point. -/
theorem findings_one_row_per_point :
    (∀ (env : Env) (topic : String) (elite : Bool) (pts : List String),
      ((runPipeline env topic elite pts).1.1).map Finding.dataPoint = pts)
    ∧ (∀ (env : Env) (topic dp : String) (elite : Bool), topic ≠ "" → dp ≠ "" →
      ((handleSubmit env topic dp elite).1.findings).map Finding.dataPoint
        = parseDataPoints dp) := by
  refine ⟨runPipeline_map_dataPoint, ?_⟩
  intro env topic dp elite ht hd
  rw [handleSubmit_of_valid env topic dp elite ht hd]
  exact runPipeline_map_dataPoint env topic elite (parseDataPoints dp)

/-- Concrete run of `findings_one_row_per_point` with every service down. -/
theorem findings_one_row_per_point_witness :
    ("T" : String) ≠ "" ∧ ("A\nB" : String) ≠ "" ∧
    ((handleSubmit failEnv "T" "A\nB" true).1.findings).map Finding.dataPoint
      = parseDataPoints "A\nB" :=
  ⟨by decide, by decide,
    findings_one_row_per_point.2 failEnv "T" "A\nB" true (by decide) (by decide)⟩

/-- Claim C2 fails as stated: in `cexEnv` the one search result's extraction
is `"Information Not Found on the page"`, which equals neither sentinel, yet
the loop rejects it (the code tests substring containment, not equality) and
records the placeholder instead of accepting value and URL. -/
theorem first_match_sentinel_equality_cex :
    (scrape_and_extract cexEnv "u1" "P").1 = "Information Not Found on the page"
    ∧ "Information Not Found on the page" ≠ "Information Not Found"
    ∧ "Information Not Found on the page" ≠ "Extraction Failed"
    ∧ (perform_search cexEnv ("T" ++ " " ++ "P") false).1 = [⟨"u1"⟩]
    ∧ (processPoint cexEnv "T" false "P").1.1 ≠
        ⟨"P", "Information Not Found on the page", "u1"⟩
    ∧ (processPoint cexEnv "T" false "P").1.1 = notFoundFinding "P" := by
  refine ⟨?_, ?_, ?_, ?_, ?_, ?_⟩ <;> decide

/-- Claim C2 (amended): for each data point, the first extraction that does
not contain the `"Information Not Found"` or `"Extraction Failed"` sentinel
as a substring is accepted immediately — its value and URL become the
Finding — and no later URL is attempted: the extraction attempts are exactly
the URLs up to and including the accepted one. -/
theorem first_match_substring_accepted (env : Env) (topic : String)
    (elite : Bool) (point : String)
    (pre : List SearchResult) (r : SearchResult) (post : List SearchResult)
    (hs : env.search (searchQueryOf (topic ++ " " ++ point) elite)
      = .ok (pre ++ r :: post))
    (hpre : ∀ s ∈ pre, accepted (scrape_and_extract env s.url point).1 = false)
    (hr : accepted (scrape_and_extract env r.url point).1 = true) :
    (processPoint env topic elite point).1.1 =
      ⟨point, (scrape_and_extract env r.url point).1, r.url⟩
    ∧ (processPoint env topic elite point).2.filter Event.isExtract =
      (pre ++ [r]).map fun s => Event.extractEv s.url point := by
  have hres : (perform_search env (topic ++ " " ++ point) elite).1
      = pre ++ r :: post := by
    rw [perform_search_results, hs]
  have hu := urlLoop_first_accepted env topic point pre r post hpre hr
  constructor
  · simp only [processPoint, hres, hu]
  · rw [processPoint_events, hres, hu]
    simp [Event.isExtract, List.filter_append]

/-- Concrete run of `first_match_substring_accepted`: the first URL is
unreachable, the second extracts `"42"`, the third is never attempted. -/
theorem first_match_substring_accepted_witness :
    (processPoint fmEnv "T" false "P").1.1 =
      ⟨"P", (scrape_and_extract fmEnv "u1" "P").1, "u1"⟩
    ∧ (processPoint fmEnv "T" false "P").2.filter Event.isExtract =
      (([⟨"u0"⟩] : List SearchResult) ++ ([⟨"u1"⟩] : List SearchResult)).map
        (fun s : SearchResult => Event.extractEv s.url "P") :=
  first_match_substring_accepted fmEnv "T" false "P" [⟨"u0"⟩] ⟨"u1"⟩ [⟨"u2"⟩]
    rfl (by decide) (by decide)

/-- Claim C3: when every candidate URL for a data point is exhausted without
an accepted extraction — including a search returning no results — the
recorded Finding is the `"Could not find in top search results"` / `"N/A"`
placeholder, and on any valid submission the summary still executes on the
resulting table. -/
theorem exhausted_placeholder_summary_still_runs :
    (∀ (env : Env) (topic : String) (elite : Bool) (point : String),
      (∀ s ∈ (perform_search env (topic ++ " " ++ point) elite).1,
        accepted (scrape_and_extract env s.url point).1 = false) →
      (processPoint env topic elite point).1.1 =
        ⟨point, "Could not find in top search results", "N/A"⟩)
    ∧ (∀ (env : Env) (topic dp : String) (elite : Bool), topic ≠ "" → dp ≠ "" →
      (handleSubmit env topic dp elite).1.summaryCalled = true
      ∧ (handleSubmit env topic dp elite).1.summary =
          generate_elaborate_summary env
            (handleSubmit env topic dp elite).1.findings topic
      ∧ Event.summarizeEv
            (env.serialize (handleSubmit env topic dp elite).1.findings)
          ∈ (handleSubmit env topic dp elite).2) := by
  constructor
  · intro env topic elite point h
    exact congrArg Prod.fst (processPoint_all_rejected env topic elite point h)
  · intro env topic dp elite ht hd
    rw [handleSubmit_of_valid env topic dp elite ht hd]
    exact ⟨rfl, rfl, by simp⟩

/-- Concrete run of `exhausted_placeholder_summary_still_runs`: search
returns zero results for the only data point, yet the summary call happens. -/
theorem exhausted_placeholder_summary_still_runs_witness :
    (processPoint failEnv "X" true "P1").1.1 =
      ⟨"P1", "Could not find in top search results", "N/A"⟩
    ∧ (handleSubmit failEnv "X" "P1" true).1.summaryCalled = true :=
  ⟨exhausted_placeholder_summary_still_runs.1 failEnv "X" true "P1" (by decide),
   (exhausted_placeholder_summary_still_runs.2 failEnv "X" "P1" true
     (by decide) (by decide)).1⟩

/-- Claim C4: on every valid run the summary request happens exactly once,
as the last event — hence after every Finding has been recorded — and its
payload is the serialization of the complete findings table, which has one
row per parsed data point. -/
theorem summary_called_once_with_complete_table (env : Env) (topic dp : String)
    (elite : Bool) (ht : topic ≠ "") (hd : dp ≠ "") :
    (handleSubmit env topic dp elite).2 =
      (runPipeline env topic elite (parseDataPoints dp)).2
        ++ [Event.summarizeEv
             (env.serialize (handleSubmit env topic dp elite).1.findings)]
    ∧ (∀ e ∈ (runPipeline env topic elite (parseDataPoints dp)).2,
        Event.isSummarize e = false)
    ∧ ((handleSubmit env topic dp elite).1.findings).map Finding.dataPoint
        = parseDataPoints dp := by
  rw [handleSubmit_of_valid env topic dp elite ht hd]
  exact ⟨rfl, runPipeline_no_summarize env topic elite (parseDataPoints dp),
    runPipeline_map_dataPoint env topic elite (parseDataPoints dp)⟩

/-- Concrete run of `summary_called_once_with_complete_table`. -/
theorem summary_called_once_with_complete_table_witness :
    (handleSubmit failEnv "T" "A" true).2 =
      (runPipeline failEnv "T" true (parseDataPoints "A")).2
        ++ [Event.summarizeEv
             (failEnv.serialize (handleSubmit failEnv "T" "A" true).1.findings)]
    ∧ ((handleSubmit failEnv "T" "A" true).1.findings).map Finding.dataPoint
        = parseDataPoints "A" :=
  ⟨(summary_called_once_with_complete_table failEnv "T" "A" true
      (by decide) (by decide)).1,
   (summary_called_once_with_complete_table failEnv "T" "A" true
      (by decide) (by decide)).2.2⟩

/-- Claim C5: the dispatched query is the base query with the fixed
consulting-domains clause appended when the elite toggle is on, and the base
query unmodified when it is off; and every search event of a run carries
exactly that dispatched form of `"{topic} {point}"` for one of the run's
data points. -/
theorem elite_toggle_query_augmentation :
    (∀ q : String,
      searchQueryOf q true = q ++ eliteClause ∧ searchQueryOf q false = q)
    ∧ (∀ (env : Env) (topic dp : String) (elite : Bool) (q : String),
      Event.searchEv q ∈ (handleSubmit env topic dp elite).2 →
      ∃ point ∈ parseDataPoints dp,
        q = searchQueryOf (topic ++ " " ++ point) elite) := by
  constructor
  · intro q
    exact ⟨rfl, rfl⟩
  · intro env topic dp elite q hq
    by_cases ht : topic = ""
    · unfold handleSubmit at hq
      simp [ht] at hq
    · by_cases hd : dp = ""
      · unfold handleSubmit at hq
        simp [hd] at hq
      · rw [handleSubmit_of_valid env topic dp elite ht hd] at hq
        rcases List.mem_append.mp hq with hq | hq
        · exact runPipeline_searchEv env topic elite (parseDataPoints dp) q hq
        · simp at hq

/-- Concrete run of `elite_toggle_query_augmentation`: the one dispatched
query of the run is the augmented form of `"T A"`. -/
theorem elite_toggle_query_augmentation_witness :
    ∃ point ∈ parseDataPoints "A",
      ("T A" ++ eliteClause) = searchQueryOf ("T" ++ " " ++ point) true :=
  elite_toggle_query_augmentation.2 failEnv "T" "A" true
    ("T A" ++ eliteClause) (by decide)

/-- Claim C6: the data-point list is built by stripping surrounding
whitespace from each line of the input and dropping the blank ones, in input
order; in particular `"A\n\n  B  \n"` yields exactly `["A", "B"]`. -/
theorem data_points_strip_and_drop :
    (∀ text : String, parseDataPoints text =
      ((pySplitNL text).map pyStrip).filter fun t => !(t == ""))
    ∧ parseDataPoints "A\n\n  B  \n" = ["A", "B"] :=
  ⟨fun text => filterMap_strip_eq (pySplitNL text), by decide⟩

/-- Claim C7: a failing search call yields the empty result list — the
adapter returns a plain list, never propagating the exception — and the
pipeline treats it as zero results: that point gets the placeholder Finding
and the run still produces one row per data point instead of aborting. -/
theorem search_failure_absorbed :
    (∀ (env : Env) (q : String) (elite : Bool) (e : String),
      env.search (searchQueryOf q elite) = .error e →
      (perform_search env q elite).1 = [])
    ∧ (∀ (env : Env) (topic : String) (elite : Bool) (point e : String),
      env.search (searchQueryOf (topic ++ " " ++ point) elite) = .error e →
      (processPoint env topic elite point).1.1 = notFoundFinding point)
    ∧ (∀ (env : Env) (topic : String) (elite : Bool) (pts : List String),
      ((runPipeline env topic elite pts).1.1).length = pts.length) := by
  refine ⟨?_, ?_, ?_⟩
  · intro env q elite e he
    rw [perform_search_results, he]
  · intro env topic elite point e he
    have hempty : (perform_search env (topic ++ " " ++ point) elite).1 = [] := by
      rw [perform_search_results, he]
    refine congrArg Prod.fst (processPoint_all_rejected env topic elite point ?_)
    rw [hempty]
    intro s hs
    simp at hs
  · intro env topic elite pts
    simpa using congrArg List.length (runPipeline_map_dataPoint env topic elite pts)

/-- Concrete run of `search_failure_absorbed` with the search service down. -/
theorem search_failure_absorbed_witness :
    (perform_search failEnv "Q" false).1 = []
    ∧ (processPoint failEnv "T" false "P").1.1 = notFoundFinding "P" :=
  ⟨search_failure_absorbed.1 failEnv "Q" false "down" rfl,
   search_failure_absorbed.2.1 failEnv "T" false "P" "down" rfl⟩

/-- Claim C8: every failure inside the page extractor — the fetch/parse
raising or the model call raising — returns the one sentinel
`"Extraction Failed"`, so the caller cannot tell the causes apart; on
success it returns the model's text stripped, and the page text embedded in
the prompt is truncated to at most 15000 characters. -/
theorem extraction_failure_collapses :
    (∀ (env : Env) (url info e : String), env.fetchText url = .error e →
      (scrape_and_extract env url info).1 = "Extraction Failed")
    ∧ (∀ (env : Env) (url info page e : String), env.fetchText url = .ok page →
      env.llm (extractionPrompt info (pyTake 15000 page)) = .error e →
      (scrape_and_extract env url info).1 = "Extraction Failed")
    ∧ (∀ (env : Env) (url info page t : String), env.fetchText url = .ok page →
      env.llm (extractionPrompt info (pyTake 15000 page)) = .ok t →
      (scrape_and_extract env url info).1 = pyStrip t)
    ∧ (∀ page : String, (pyTake 15000 page).length ≤ 15000) := by
  refine ⟨?_, ?_, ?_, ?_⟩
  · intro env url info e he
    simp only [scrape_and_extract, he]
  · intro env url info page e hf hl
    simp only [scrape_and_extract, hf, hl]
  · intro env url info page t hf hl
    simp only [scrape_and_extract, hf, hl]
  · intro page
    exact List.length_take_le 15000 page.toList

/-- Concrete runs of `extraction_failure_collapses`: an unreachable page and
a successful extraction. -/
theorem extraction_failure_collapses_witness :
    (scrape_and_extract failEnv "u" "P").1 = "Extraction Failed"
    ∧ (scrape_and_extract fmEnv "u1" "P").1 = pyStrip "42" :=
  ⟨extraction_failure_collapses.1 failEnv "u" "P" "down" rfl,
   extraction_failure_collapses.2.2.1 fmEnv "u1" "P" "page" "42" rfl rfl⟩

/-- Claim C9 fails as stated: with a non-empty topic and a whitespace-only
data-points input — which contains no non-blank line, so the claim demands
an error and no pipeline start — the handler reports no error and proceeds
to the summary call. -/
theorem required_fields_cex :
    parseDataPoints " \n" = []
    ∧ (handleSubmit failEnv "T" " \n" false).1.errorShown = false
    ∧ (handleSubmit failEnv "T" " \n" false).1.summaryCalled = true := by
  refine ⟨?_, ?_, ?_⟩ <;> decide

/-- Claim C9 (amended): the validation error is shown exactly when the topic
or the raw data-points text is the empty string, in which case nothing runs
(no event, no Finding, no summary); any other submission — including a
whitespace-only data-points input, which parses to zero data points — passes
validation, runs the pipeline on the parsed points, and executes the
summary. -/
theorem required_fields_validation :
    (∀ (env : Env) (topic dp : String) (elite : Bool),
      (handleSubmit env topic dp elite).1.errorShown
        = decide (topic = "" ∨ dp = ""))
    ∧ (∀ (env : Env) (topic dp : String) (elite : Bool),
      (topic = "" ∨ dp = "") →
      handleSubmit env topic dp elite = (⟨true, [], false, ""⟩, []))
    ∧ (∀ (env : Env) (topic dp : String) (elite : Bool), topic ≠ "" → dp ≠ "" →
      (handleSubmit env topic dp elite).1.errorShown = false
      ∧ (handleSubmit env topic dp elite).1.summaryCalled = true
      ∧ ((handleSubmit env topic dp elite).1.findings).map Finding.dataPoint
          = parseDataPoints dp) := by
  refine ⟨?_, ?_, ?_⟩
  · intro env topic dp elite
    by_cases ht : topic = ""
    · unfold handleSubmit
      simp [ht]
    · by_cases hd : dp = ""
      · unfold handleSubmit
        simp [ht, hd]
      · rw [handleSubmit_of_valid env topic dp elite ht hd]
        simp [ht, hd]
  · intro env topic dp elite h
    unfold handleSubmit
    rcases h with h | h
    · simp [h]
    · simp [h]
  · intro env topic dp elite ht hd
    rw [handleSubmit_of_valid env topic dp elite ht hd]
    exact ⟨rfl, rfl, runPipeline_map_dataPoint env topic elite (parseDataPoints dp)⟩

/-- Concrete runs of `required_fields_validation`: an empty topic is
refused; a whitespace-only data-points text is not. -/
theorem required_fields_validation_witness :
    handleSubmit failEnv "" "A" false = (⟨true, [], false, ""⟩, [])
    ∧ (handleSubmit failEnv "T" " \n" false).1.errorShown = false
    ∧ (handleSubmit failEnv "T" " \n" false).1.summaryCalled = true :=
  ⟨required_fields_validation.2.1 failEnv "" "A" false (Or.inl rfl),
   (required_fields_validation.2.2 failEnv "T" " \n" false
     (by decide) (by decide)).1,
   (required_fields_validation.2.2 failEnv "T" " \n" false
     (by decide) (by decide)).2.1⟩

/-- Claim C10: `find_relevant_images` depends only on the first five image
tags of the page, returns at most two URLs, each one of those tags' `src`
made absolute against the page URL; a failure fetching the page yields `[]`,
and a failure analyzing one image skips only that image. -/
theorem images_first_five_at_most_two :
    (∀ (env : Env) (url topic : String),
      (find_relevant_images env url topic).length ≤ 2)
    ∧ (∀ (env : Env) (url topic e : String),
      env.fetchImgSrcs url = .error e → find_relevant_images env url topic = [])
    ∧ (∀ (env : Env) (url topic : String) (srcs : List (Option String)),
      env.fetchImgSrcs url = .ok srcs →
      ∀ u ∈ find_relevant_images env url topic,
        ∃ src, (some src) ∈ srcs.take 5 ∧ u = env.urljoin url src)
    ∧ (∀ (env : Env) (pageUrl topic src e : String)
        (rest : List (Option String)) (acc : List String), src ≠ "" →
      env.analyzeImage (env.urljoin pageUrl src) topic = .error e →
      imgLoop env pageUrl topic (some src :: rest) acc
        = imgLoop env pageUrl topic rest acc)
    ∧ (∀ (env₁ env₂ : Env) (url topic : String)
        (srcs₁ srcs₂ : List (Option String)),
      env₁.fetchImgSrcs url = .ok srcs₁ → env₂.fetchImgSrcs url = .ok srcs₂ →
      srcs₁.take 5 = srcs₂.take 5 →
      env₁.urljoin = env₂.urljoin → env₁.analyzeImage = env₂.analyzeImage →
      find_relevant_images env₁ url topic = find_relevant_images env₂ url topic) := by
  refine ⟨?_, ?_, ?_, ?_, ?_⟩
  · intro env url topic
    unfold find_relevant_images
    cases h : env.fetchImgSrcs url with
    | error e => simp
    | ok srcs => exact imgLoop_length env url topic (srcs.take 5) [] (by simp)
  · intro env url topic e he
    unfold find_relevant_images
    rw [he]
  · intro env url topic srcs hok u hu
    unfold find_relevant_images at hu
    rw [hok] at hu
    rcases imgLoop_mem env url topic (srcs.take 5) [] u hu with h | h
    · simp at h
    · exact h
  · intro env pageUrl topic src e rest acc hne herr
    exact imgLoop_skip_broken env pageUrl topic src rest acc e hne herr
  · intro env₁ env₂ url topic srcs₁ srcs₂ h1 h2 hts hj ha
    unfold find_relevant_images
    simp only [h1, h2, ← hts]
    exact imgLoop_congr env₁ env₂ url topic hj ha (srcs₁.take 5) []

/-- Concrete run of `images_first_five_at_most_two`: six tags on the page,
all judged relevant; only the first two non-empty ones are returned, and
each returned URL is one of the first five tags made absolute. -/
theorem images_first_five_at_most_two_witness :
    find_relevant_images imgEnv "u/" "t" = ["u/a", "u/b"]
    ∧ (∃ src,
        (some src) ∈ ([some "a", none, some "b", some "c", some "d", some "e"]
          : List (Option String)).take 5
        ∧ "u/a" = imgEnv.urljoin "u/" src) :=
  ⟨by decide,
   images_first_five_at_most_two.2.2.1 imgEnv "u/" "t"
     [some "a", none, some "b", some "c", some "d", some "e"] rfl "u/a" (by decide)⟩

end CogniSynth
